import Mathlib

/-!
Shallow embedding of the transcript synchronization core of the
`dialogue-generation` repository (`backend/api_server.py` and
`backend/room_user_mapping.py`), together with theorems settling the
specification claims about it.

Conventions of the embedding:
* Python strings are Lean `String`s; `str.strip()` is `pyStrip`,
  substring containment (`a in b`) is `pyIn`, `len` is `pyLen`.
* A transcript entry (the JSON object `{"speaker", "text", "is_final"}`)
  is the structure `Entry`; entries read from well-formed transcript
  files always carry all three keys, so the `dict.get` defaults of the
  Python code collapse to plain field access.
* Stateful methods are modelled as pure functions from the state they
  read to the state they write plus the observable outputs (messages
  sent, watchers removed, ...).  File I/O, locking and logging are
  outside the model; the functions below compute exactly the data the
  Python code would persist or send.
* Python integer user ids are `Int`; `Optional[int]` is `Option Int`.
  Python truthiness of an `Optional[int]` (`if user_id:`) is
  `truthyOwner`: `some a` with `a ≠ 0`.
-/

/-- Python `str.strip()` on the character list: drop whitespace from the
left, then from the right (`Char.isWhitespace` matches Python's default
strip set for the texts handled here). -/
def pyStripList (l : List Char) : List Char :=
  List.rdropWhile Char.isWhitespace (l.dropWhile Char.isWhitespace)

/-- Python `str.strip()`. -/
def pyStrip (s : String) : String :=
  String.mk (pyStripList s.toList)

/-- Python `len` of a string (code-point count). -/
def pyLen (s : String) : Nat := s.toList.length

/-- `isPrefixL a b`: the character list `a` is a prefix of `b`. -/
def isPrefixL : List Char → List Char → Bool
  | [], _ => true
  | _ :: _, [] => false
  | a :: as, b :: bs => a == b && isPrefixL as bs

/-- Python substring containment `sub in s` on character lists. -/
def pyInList (sub : List Char) : List Char → Bool
  | [] => sub.isEmpty
  | b :: bs => isPrefixL sub (b :: bs) || pyInList sub bs

/-- Python substring containment `sub in s` for strings. -/
def pyIn (sub s : String) : Bool := pyInList sub.toList s.toList

/-- One transcript entry, the JSON object
`{"speaker": ..., "text": ..., "is_final": ...}` written by
`update_transcript_incremental` and `save_transcript_to_file`. -/
structure Entry where
  speaker : String
  text : String
  isFinal : Bool
deriving DecidableEq, Repr

/-- Python `l[-n:]`: the last `n` elements (all of `l` when shorter). -/
def lastN (n : Nat) (l : List α) : List α := l.drop (l.length - n)

/-- The duplicate scan of the final-event path of
`update_transcript_incremental` (api_server.py lines 348-361 and
376-389): does any of the last 20 entries match
`(speaker, text_stripped, is_final=True)`?  Stored texts are compared
stripped (`entry.get("text", "").strip() == text_stripped`). -/
def dupFinalRecent (ts : List Entry) (speaker t : String) : Bool :=
  (lastN 20 ts).any fun e => e.speaker == speaker && pyStrip e.text == t && e.isFinal

/-- The duplicate scan of the interim-event path of
`update_transcript_incremental` (api_server.py lines 433-445 and
453-466): does any of the last 10 entries match
`(speaker, text_stripped, is_final=False)`? -/
def dupInterimRecent (ts : List Entry) (speaker t : String) : Bool :=
  (lastN 10 ts).any fun e => e.speaker == speaker && pyStrip e.text == t && !e.isFinal

/-- The merge algorithm of `update_transcript_incremental`
(api_server.py lines 305-476), as a pure function from the stored entry
list to the entry list the function writes back.  The early
`return file_path` paths of the Python code (empty stripped text,
duplicate suppression) leave the stored list unchanged.  Note the
final-event branch for a trailing same-speaker interim entry with
identical stripped text: the Python code's comment says "just mark as
final" but the body performs no update, so the entry stays non-final;
the embedding reproduces that behaviour exactly. -/
def update_transcript_incremental (speaker text : String) (isFinal : Bool)
    (ts : List Entry) : List Entry :=
  let t := pyStrip text
  if isFinal then
    if t = "" then ts
    else
      match ts.getLast? with
      | none => ts ++ [⟨speaker, t, true⟩]
      | some last =>
        let lastText := pyStrip last.text
        if last.speaker == speaker && !last.isFinal then
          -- promote trailing interim entry of the same speaker
          if lastText ≠ t then ts.dropLast ++ [⟨speaker, t, true⟩]
          else ts
        else if last.speaker == speaker && last.isFinal then
          if lastText == t then ts
          else if pyIn lastText t && pyLen t > pyLen lastText then
            ts.dropLast ++ [⟨speaker, t, true⟩]
          else if dupFinalRecent ts speaker t then ts
          else ts ++ [⟨speaker, t, true⟩]
        else
          if dupFinalRecent ts speaker t then ts
          else ts ++ [⟨speaker, t, true⟩]
  else
    if t = "" then ts
    else
      match ts.getLast? with
      | none => ts ++ [⟨speaker, t, false⟩]
      | some last =>
        if last.speaker == speaker && !last.isFinal then
          ts.dropLast ++ [⟨speaker, t, false⟩]
        else if last.speaker == speaker && last.isFinal then
          if dupInterimRecent ts speaker t then ts
          else ts ++ [⟨speaker, t, false⟩]
        else
          if dupInterimRecent ts speaker t then ts
          else ts ++ [⟨speaker, t, false⟩]

-- Sanity examples (scenario from spec section 8)
example :
    update_transcript_incremental "Bob" "Hi there." true
      (update_transcript_incremental "Bob" "Hi there" false
        (update_transcript_incremental "Bob" "Hi" false []))
      = [⟨"Bob", "Hi there.", true⟩] := by decide

example :
    update_transcript_incremental "Alice" "Hello" true [⟨"Alice", "Hello", false⟩]
      = [⟨"Alice", "Hello", false⟩] := by decide

/-! ### String-stripping lemmas -/

theorem pyStripList_idem (l : List Char) :
    pyStripList (pyStripList l) = pyStripList l := by
  unfold pyStripList
  have hdw : (List.rdropWhile Char.isWhitespace (l.dropWhile Char.isWhitespace)).dropWhile
      Char.isWhitespace = List.rdropWhile Char.isWhitespace (l.dropWhile Char.isWhitespace) := by
    cases hm : List.rdropWhile Char.isWhitespace (l.dropWhile Char.isWhitespace) with
    | nil => rfl
    | cons a t =>
      obtain ⟨r, hr⟩ := List.rdropWhile_prefix (p := Char.isWhitespace)
        (l := l.dropWhile Char.isWhitespace)
      rw [hm] at hr
      have hhead : (l.dropWhile Char.isWhitespace).head? = some a := by
        rw [← hr]; rfl
      have hnot : Char.isWhitespace a = false := by
        have hx := List.head?_dropWhile_not Char.isWhitespace l
        rw [hhead] at hx
        exact hx
      simp [List.dropWhile_cons, hnot]
  rw [hdw]
  exact List.rdropWhile_idempotent _ _

theorem pyStrip_idem (s : String) : pyStrip (pyStrip s) = pyStrip s := by
  unfold pyStrip
  have hx : (String.mk (pyStripList s.toList)).toList = pyStripList s.toList := rfl
  rw [hx, pyStripList_idem]

/-! ### Claims about the merge algorithm -/

/-- C7: calling `update_transcript_incremental` with a text whose
trimmed form is empty leaves the stored transcript entry sequence
unchanged, for every transcript, speaker and finality flag (the Python
code returns early without touching the file). -/
theorem c7_empty_text_merge_noop (speaker text : String) (isFinal : Bool)
    (ts : List Entry) (h : pyStrip text = "") :
    update_transcript_incremental speaker text isFinal ts = ts := by
  unfold update_transcript_incremental
  cases isFinal <;> simp [h]

theorem c7_empty_text_merge_noop_witness :
    pyStrip "   " = "" ∧
      update_transcript_incremental "Alice" "   " true [⟨"Bob", "x", true⟩]
        = [⟨"Bob", "x", true⟩] :=
  ⟨by decide, c7_empty_text_merge_noop "Alice" "   " true [⟨"Bob", "x", true⟩] (by decide)⟩

/-- C2 (failing input): a final event whose trimmed text equals the
trailing same-speaker interim entry's text leaves that entry non-final.
The code's own comment says "just mark as final (no update needed)" but
the branch body performs no update at all, so the promised promotion to
final never happens when the text is identical. -/
theorem c2_promotion_identical_text_stays_interim :
    update_transcript_incremental "Alice" "Hello" true [⟨"Alice", "Hello", false⟩]
      = [⟨"Alice", "Hello", false⟩] ∧
    (update_transcript_incremental "Alice" "Hello" true
        [⟨"Alice", "Hello", false⟩]).getLast? ≠ some ⟨"Alice", "Hello", true⟩ := by
  constructor
  · decide
  · decide

/-- Evaluation lemma: a final event applied to a transcript whose last
entry is exactly `⟨speaker, pyStrip text, true⟩` is dropped as an exact
duplicate of the trailing entry. -/
theorem merge_final_concat_self (speaker text : String) (pre : List Entry)
    (h : pyStrip text ≠ "") :
    update_transcript_incremental speaker text true (pre ++ [⟨speaker, pyStrip text, true⟩])
      = pre ++ [⟨speaker, pyStrip text, true⟩] := by
  unfold update_transcript_incremental
  simp [h, List.getLast?_concat, pyStrip_idem]

/-- C3: final-event idempotence.  Sending the same final
`(speaker, text)` event (non-empty trimmed text) twice in a row to the
merge leaves the transcript identical to the state after the first
application: the second application is always dropped or a no-op. -/
theorem c3_final_merge_idempotent (speaker text : String) (ts : List Entry)
    (h : pyStrip text ≠ "") :
    update_transcript_incremental speaker text true
        (update_transcript_incremental speaker text true ts)
      = update_transcript_incremental speaker text true ts := by
  cases hlast : ts.getLast? with
  | none =>
    have hts : ts = [] := List.getLast?_eq_none_iff.mp hlast
    subst hts
    have h1 : update_transcript_incremental speaker text true []
        = [] ++ [⟨speaker, pyStrip text, true⟩] := by
      unfold update_transcript_incremental
      simp [h]
    rw [h1]
    exact merge_final_concat_self speaker text [] h
  | some last =>
    by_cases hs : last.speaker = speaker
    · by_cases hf : last.isFinal = true
      · by_cases he : pyStrip last.text = pyStrip text
        · have h1 : update_transcript_incremental speaker text true ts = ts := by
            unfold update_transcript_incremental
            simp [h, hlast, hs, hf, he]
          rw [h1]
          exact h1
        · by_cases hext : (pyIn (pyStrip last.text) (pyStrip text)
              && decide (pyLen (pyStrip text) > pyLen (pyStrip last.text))) = true
          · have h1 : update_transcript_incremental speaker text true ts
                = ts.dropLast ++ [⟨speaker, pyStrip text, true⟩] := by
              unfold update_transcript_incremental
              simp [h, hlast, hs, hf, he, hext]
            rw [h1]
            exact merge_final_concat_self speaker text ts.dropLast h
          · by_cases hdup : dupFinalRecent ts speaker (pyStrip text) = true
            · have h1 : update_transcript_incremental speaker text true ts = ts := by
                unfold update_transcript_incremental
                simp [h, hlast, hs, hf, he, hext, hdup]
              rw [h1]
              exact h1
            · have h1 : update_transcript_incremental speaker text true ts
                  = ts ++ [⟨speaker, pyStrip text, true⟩] := by
                unfold update_transcript_incremental
                simp [h, hlast, hs, hf, he, hext, hdup]
              rw [h1]
              exact merge_final_concat_self speaker text ts h
      · by_cases he : pyStrip last.text = pyStrip text
        · have h1 : update_transcript_incremental speaker text true ts = ts := by
            unfold update_transcript_incremental
            simp [h, hlast, hs, hf, he]
          rw [h1]
          exact h1
        · have h1 : update_transcript_incremental speaker text true ts
              = ts.dropLast ++ [⟨speaker, pyStrip text, true⟩] := by
            unfold update_transcript_incremental
            simp [h, hlast, hs, hf, he]
          rw [h1]
          exact merge_final_concat_self speaker text ts.dropLast h
    · by_cases hdup : dupFinalRecent ts speaker (pyStrip text) = true
      · have h1 : update_transcript_incremental speaker text true ts = ts := by
          unfold update_transcript_incremental
          simp [h, hlast, hs, hdup]
        rw [h1]
        exact h1
      · have h1 : update_transcript_incremental speaker text true ts
            = ts ++ [⟨speaker, pyStrip text, true⟩] := by
          unfold update_transcript_incremental
          simp [h, hlast, hs, hdup]
        rw [h1]
        exact merge_final_concat_self speaker text ts h

theorem c3_final_merge_idempotent_witness :
    pyStrip "Hi there." ≠ "" ∧
      update_transcript_incremental "Bob" "Hi there." true
          (update_transcript_incremental "Bob" "Hi there." true [⟨"Ann", "Yo", true⟩])
        = update_transcript_incremental "Bob" "Hi there." true [⟨"Ann", "Yo", true⟩] :=
  ⟨by decide, c3_final_merge_idempotent "Bob" "Hi there." [⟨"Ann", "Yo", true⟩] (by decide)⟩

/-- C4: extension law for consecutive final entries of the same
speaker.  With the last stored entry `("Alice", "Hello", final)`, a
final event `("Alice", "Hello world")` replaces it in place, and a
final event `("Alice", "Goodbye")` (neither identical nor an extension,
and — by hypothesis — not an exact final match in the last 20 entries)
appends a second final entry. -/
theorem c4_extension_law (ts : List Entry)
    (hlast : ts.getLast? = some ⟨"Alice", "Hello", true⟩) :
    update_transcript_incremental "Alice" "Hello world" true ts
      = ts.dropLast ++ [⟨"Alice", "Hello world", true⟩] ∧
    (dupFinalRecent ts "Alice" "Goodbye" = false →
      update_transcript_incremental "Alice" "Goodbye" true ts
        = ts ++ [⟨"Alice", "Goodbye", true⟩]) := by
  have e1 : pyStrip "Hello world" = "Hello world" := by decide
  have e2 : pyStrip "Hello" = "Hello" := by decide
  have e3 : pyStrip "Goodbye" = "Goodbye" := by decide
  have e4 : pyIn "Hello" "Hello world" = true := by decide
  have e5 : pyIn "Hello" "Goodbye" = false := by decide
  have e6 : pyLen "Hello" < pyLen "Hello world" := by decide
  constructor
  · unfold update_transcript_incremental
    simp [hlast, e1, e2, e4, e6]
  · intro hdup
    unfold update_transcript_incremental
    simp [hlast, e2, e3, e5, hdup]

theorem c4_extension_law_witness :
    update_transcript_incremental "Alice" "Hello world" true [⟨"Alice", "Hello", true⟩]
      = [⟨"Alice", "Hello world", true⟩] ∧
    update_transcript_incremental "Alice" "Goodbye" true [⟨"Alice", "Hello", true⟩]
      = [⟨"Alice", "Hello", true⟩, ⟨"Alice", "Goodbye", true⟩] := by
  have hc := c4_extension_law [⟨"Alice", "Hello", true⟩] (by decide)
  exact ⟨by simpa using hc.1, by simpa using hc.2 (by decide)⟩

/-- Evaluation lemma: an interim event applied to a transcript whose
last entry is a same-speaker interim entry replaces that entry in place
(api_server.py lines 417-427), regardless of its text. -/
theorem merge_interim_concat (speaker t x : String) (pre : List Entry)
    (h : pyStrip t ≠ "") :
    update_transcript_incremental speaker t false (pre ++ [⟨speaker, x, false⟩])
      = pre ++ [⟨speaker, pyStrip t, false⟩] := by
  unfold update_transcript_incremental
  simp [h, List.getLast?_concat]

/-- A run of same-speaker interim events applied on top of a trailing
same-speaker interim entry keeps replacing that entry in place. -/
theorem interim_run_aux (speaker : String) (rest : List String) :
    ∀ (pre : List Entry) (x : String), (∀ t ∈ rest, pyStrip t ≠ "") →
    rest.foldl (fun acc t => update_transcript_incremental speaker t false acc)
        (pre ++ [⟨speaker, x, false⟩])
      = pre ++ [⟨speaker, (rest.map pyStrip).getLastD x, false⟩] := by
  induction rest with
  | nil =>
    intro pre x _
    simp [List.getLastD]
  | cons t ts ih =>
    intro pre x hal
    have ht : pyStrip t ≠ "" := hal t (by simp)
    rw [List.foldl_cons, merge_interim_concat speaker t x pre ht,
      ih pre (pyStrip t) (fun u hu => hal u (by simp [hu]))]
    rw [List.map_cons, List.getLastD_cons]

/-- The part of the transcript the first landing interim event of a run
leaves untouched: everything except a trailing same-speaker interim
entry (which gets replaced). -/
def interimRunPre (speaker : String) (ts : List Entry) : List Entry :=
  match ts.getLast? with
  | some last => if last.speaker == speaker && !last.isFinal then ts.dropLast else ts
  | none => ts

/-- C5 (amended): for a run of same-speaker interim events with
non-empty trimmed text applied via the merge, provided the first event
of the run actually lands (the transcript is empty, or its last entry
is a same-speaker interim entry, or the first event is not suppressed
by the 10-entry interim-duplicate look-back window), the run
contributes exactly one trailing entry holding the trimmed text of the
run's last event; everything before it is untouched. -/
theorem c5_interim_run_replace (speaker t0 : String) (rest : List String)
    (ts : List Entry) (h0 : pyStrip t0 ≠ "")
    (hrest : ∀ t ∈ rest, pyStrip t ≠ "")
    (hland : ts = [] ∨
      (∃ last, ts.getLast? = some last ∧ last.speaker = speaker ∧ last.isFinal = false) ∨
      dupInterimRecent ts speaker (pyStrip t0) = false) :
    rest.foldl (fun acc t => update_transcript_incremental speaker t false acc)
        (update_transcript_incremental speaker t0 false ts)
      = interimRunPre speaker ts
          ++ [⟨speaker, (rest.map pyStrip).getLastD (pyStrip t0), false⟩] := by
  have hstep : update_transcript_incremental speaker t0 false ts
      = interimRunPre speaker ts ++ [⟨speaker, pyStrip t0, false⟩] := by
    cases hlast : ts.getLast? with
    | none =>
      have hts : ts = [] := List.getLast?_eq_none_iff.mp hlast
      subst hts
      unfold update_transcript_incremental interimRunPre
      simp [h0]
    | some last =>
      by_cases hsp : last.speaker = speaker
      · cases hfin : last.isFinal with
        | false =>
          unfold update_transcript_incremental interimRunPre
          simp [h0, hlast, hsp, hfin]
        | true =>
          have hdup : dupInterimRecent ts speaker (pyStrip t0) = false := by
            rcases hland with hland | hland | hland
            · subst hland; simp at hlast
            · obtain ⟨last2, hl2, hl3, hl4⟩ := hland
              rw [hlast] at hl2
              cases hl2
              rw [hfin] at hl4
              cases hl4
            · exact hland
          unfold update_transcript_incremental interimRunPre
          simp [h0, hlast, hsp, hfin, hdup]
      · have hdup : dupInterimRecent ts speaker (pyStrip t0) = false := by
          rcases hland with hland | hland | hland
          · subst hland; simp at hlast
          · obtain ⟨last2, hl2, hl3, hl4⟩ := hland
            rw [hlast] at hl2
            cases hl2
            exact absurd hl3 hsp
          · exact hland
        unfold update_transcript_incremental interimRunPre
        simp [h0, hlast, hsp, hdup]
  rw [hstep]
  exact interim_run_aux speaker rest (interimRunPre speaker ts) (pyStrip t0) hrest

theorem c5_interim_run_replace_witness :
    update_transcript_incremental "s" "c" false
        (update_transcript_incremental "s" "b" false
          (update_transcript_incremental "s" "a" false [⟨"o", "yo", true⟩]))
      = [⟨"o", "yo", true⟩, ⟨"s", "c", false⟩] := by
  have hc := c5_interim_run_replace "s" "a" ["b", "c"] [⟨"o", "yo", true⟩]
    (by decide) (by decide) (Or.inr (Or.inr (by decide)))
  simpa [interimRunPre, List.getLastD] using hc

/-- C5 fails as literally stated: a single-event run of interim
`("s", "hi")` on a transcript whose 10-entry window already holds an
interim `("s", "hi")` entry (behind a final entry of another speaker)
is suppressed entirely — the transcript is unchanged and the trailing
entry is not the run's text. -/
theorem c5_counterexample :
    update_transcript_incremental "s" "hi" false
        [⟨"s", "hi", false⟩, ⟨"o", "yo", true⟩]
      = [⟨"s", "hi", false⟩, ⟨"o", "yo", true⟩] ∧
    (update_transcript_incremental "s" "hi" false
        [⟨"s", "hi", false⟩, ⟨"o", "yo", true⟩]).getLast? ≠ some ⟨"s", "hi", false⟩ := by
  constructor <;> decide

/-! ### ChangeWatcher: `TranscriptFileWatcher.on_modified` diff core -/

/-- The diff computation of `TranscriptFileWatcher.on_modified`
(api_server.py lines 659-726) as a pure function of the cached
transcripts (`last_known_state[meeting]["transcripts"]`, defaulting to
`[]` when absent) and the freshly loaded transcripts.  Returns the new
cached transcript list and the list of emitted watch messages, each an
entry list together with its `is_update` flag (`True` maps to wire type
`"transcript_update"`, `False` to `"transcript_new"`). -/
def on_modified_diff (lastTs newTs : List Entry) :
    List Entry × List (List Entry × Bool) :=
  if newTs.length > lastTs.length then
    (newTs, [(newTs.drop lastTs.length, false)])
  else if newTs.length = lastTs.length ∧ newTs ≠ lastTs then
    match newTs.getLast?, lastTs.getLast? with
    | some lastNew, some lastOld =>
      if lastNew ≠ lastOld then (newTs, [([lastNew], true)])
      else
        let changed := (lastTs.zip newTs).filterMap
          fun p => if p.1 ≠ p.2 then some p.2 else none
        if changed ≠ [] then (newTs, [(changed, true)]) else (lastTs, [])
    | _, _ =>
      if newTs ≠ [] then (newTs, [(newTs, false)]) else (lastTs, [])
  else if newTs.length < lastTs.length then (newTs, [])
  else (lastTs, [])

/-- C8: when the newly loaded entry list is strictly shorter than the
cached one, `on_modified` silently resets: the cache is updated to the
new data and no message is emitted to any watcher. -/
theorem c8_truncation_silent_reset (lastTs newTs : List Entry)
    (h : newTs.length < lastTs.length) :
    on_modified_diff lastTs newTs = (newTs, []) := by
  unfold on_modified_diff
  have h1 : ¬ newTs.length > lastTs.length := by omega
  have h2 : ¬ (newTs.length = lastTs.length ∧ newTs ≠ lastTs) := by
    rintro ⟨h2, -⟩; omega
  simp [h1, h2, h]

theorem c8_truncation_silent_reset_witness :
    on_modified_diff [⟨"A", "x", true⟩, ⟨"A", "y", true⟩] [⟨"A", "x", true⟩]
      = ([⟨"A", "x", true⟩], []) :=
  c8_truncation_silent_reset [⟨"A", "x", true⟩, ⟨"A", "y", true⟩] [⟨"A", "x", true⟩]
    (by decide)

/-! ### ConnectionHub: ownership-filtered watch delivery -/

/-- Lookup in `TranscriptManager.connection_users`
(`get_user_id_for_connection`, api_server.py lines 856-858): the owner
user id of a connection, `none` when the connection is unknown.
Connections are identified by opaque numeric ids. -/
def get_user_id_for_connection (connUsers : List (Nat × Int)) (ws : Nat) : Option Int :=
  (connUsers.find? fun p => p.1 == ws).map fun p => p.2

/-- Python truthiness of an `Optional[int]` (`if room_user_id and ...`):
`some a` with `a ≠ 0`. -/
def truthyOwner : Option Int → Bool
  | none => false
  | some a => a != 0

/-- `TranscriptFileWatcher._async_send_updates` (api_server.py lines
779-809) as a pure function: given the room owner looked up from the
ownership registry, the connection-to-user map, and the snapshot list
of watchers, it returns the watcher ids that are sent the message and
the watcher ids that are removed from the watch set (in iteration
order).  A watcher whose owner mismatches a truthy room owner is
removed and skipped; the message is sent when the room owner is unknown
(`None`, backward compatibility) or the watcher's owner matches. -/
def async_send_updates (roomOwner : Option Int) (connUsers : List (Nat × Int)) :
    List Nat → List Nat × List Nat
  | [] => ([], [])
  | ws :: rest =>
    let watcherUid := get_user_id_for_connection connUsers ws
    if truthyOwner roomOwner && watcherUid != roomOwner then
      let r := async_send_updates roomOwner connUsers rest
      (r.1, ws :: r.2)
    else if roomOwner.isNone || watcherUid == roomOwner then
      let r := async_send_updates roomOwner connUsers rest
      (ws :: r.1, r.2)
    else
      async_send_updates roomOwner connUsers rest

/-- C1 fails as literally stated: with room owner `A = 0` (a falsy id
under Python truthiness) and a watcher owned by `B = 1 ≠ A` present in
the watch set, the watcher is not sent the update, but it is not
removed from the watch set either — the removal promised by the claim
does not happen for owner id 0. -/
theorem c1_counterexample :
    get_user_id_for_connection [(0, 1)] 0 = some 1 ∧ (1 : Int) ≠ 0 ∧
      async_send_updates (some 0) [(0, 1)] [0] = ([], []) := by
  refine ⟨by decide, by decide, ?_⟩
  decide

/-- C1 (amended): for any two distinct owner ids `A` and `B`, a watch
update for a meeting owned by `A` is never sent over a connection owned
by `B`; and whenever `A ≠ 0` (a truthy owner id) every occurrence of
that mismatched watcher in the watch list is removed. -/
theorem c1_ownership_isolation (A B : Int) (hAB : A ≠ B)
    (connUsers : List (Nat × Int)) (w : Nat)
    (hw : get_user_id_for_connection connUsers w = some B) :
    ∀ watchers : List Nat,
      w ∉ (async_send_updates (some A) connUsers watchers).1 ∧
      (A ≠ 0 → w ∈ watchers → w ∈ (async_send_updates (some A) connUsers watchers).2) := by
  intro watchers
  induction watchers with
  | nil => simp [async_send_updates]
  | cons ws rest ih =>
    by_cases hww : ws = w
    · subst hww
      by_cases hA : A = 0
      · subst hA
        have hcond : ¬ (truthyOwner (some 0)
            && (get_user_id_for_connection connUsers ws != some 0)) = true := by
          simp [truthyOwner]
        have hsend : ¬ ((some (0 : Int)).isNone
            || (get_user_id_for_connection connUsers ws == some 0)) = true := by
          simp [hw]
          omega
        constructor
        · show ws ∉ (async_send_updates (some 0) connUsers (ws :: rest)).1
          unfold async_send_updates
          simp only [hcond, if_neg, hsend, if_false]
          exact ih.1
        · intro hA0
          exact absurd rfl hA0
      · have hcond : (truthyOwner (some A)
            && (get_user_id_for_connection connUsers ws != some A)) = true := by
          simp [truthyOwner, hw, hA]
          omega
        constructor
        · show ws ∉ (async_send_updates (some A) connUsers (ws :: rest)).1
          unfold async_send_updates
          simp only [hcond, if_true]
          exact ih.1
        · intro _ _
          show ws ∈ (async_send_updates (some A) connUsers (ws :: rest)).2
          unfold async_send_updates
          simp only [hcond, if_true]
          exact List.mem_cons_self ws _
    · constructor
      · show w ∉ (async_send_updates (some A) connUsers (ws :: rest)).1
        simp only [async_send_updates]
        split
        · exact ih.1
        · split
          · intro hmem
            rcases List.mem_cons.mp hmem with h | h
            · exact hww (h.symm)
            · exact ih.1 h
          · exact ih.1
      · intro hA hmem
        have hmem2 : w ∈ rest := by
          rcases List.mem_cons.mp hmem with h | h
          · exact absurd h.symm hww
          · exact h
        show w ∈ (async_send_updates (some A) connUsers (ws :: rest)).2
        simp only [async_send_updates]
        split
        · exact List.mem_cons_of_mem ws (ih.2 hA hmem2)
        · split
          · exact ih.2 hA hmem2
          · exact ih.2 hA hmem2

theorem c1_ownership_isolation_witness :
    5 ∉ (async_send_updates (some 1) [(5, 2)] [5]).1 ∧
      5 ∈ (async_send_updates (some 1) [(5, 2)] [5]).2 :=
  ⟨(c1_ownership_isolation 1 2 (by decide) [(5, 2)] 5 (by decide) [5]).1,
    (c1_ownership_isolation 1 2 (by decide) [(5, 2)] 5 (by decide) [5]).2
      (by decide) (by decide)⟩

/-! ### WebSocket handshake authentication (`websocket_endpoint`) -/

/-- The inputs the handshake authentication of `websocket_endpoint`
(api_server.py lines 2455-2514) depends on: the `token` query
parameter, whether `verify_token` returns a payload, the payload's
`sub` field, and the user id `get_user_by_username` resolves. -/
structure HandshakeEnv where
  token : Option String
  verifyOk : Bool
  subUsername : Option String
  dbUser : Option Int
deriving DecidableEq, Repr

/-- The handshake authentication decision of `websocket_endpoint`:
either the socket is closed with `(close code, reason)` or the
connection is accepted for the resolved user id.  The four rejection
paths are taken from api_server.py lines 2467-2505. -/
def websocket_auth (env : HandshakeEnv) : (Nat × String) ⊕ Int :=
  match env.token with
  | none => .inl (1008, "Authentication required")
  | some _ =>
    if !env.verifyOk then .inl (1008, "Invalid token")
    else
      match env.subUsername with
      | none => .inl (1008, "Invalid token payload")
      | some _ =>
        match env.dbUser with
        | none => .inl (1008, "User not found")
        | some uid => .inr uid

/-- The close code of a handshake rejection, `none` when accepted. -/
def closeCodeOf : (Nat × String) ⊕ Int → Option Nat
  | .inl p => some p.1
  | .inr _ => none

/-- The close reason string of a handshake rejection. -/
def closeReasonOf : (Nat × String) ⊕ Int → Option String
  | .inl p => some p.2
  | .inr _ => none

/-- C9 fails as stated: the three authentication failure reasons
(missing credential, invalid credential, unknown user) all close the
socket with the same close code 1008 — the codes are not pairwise
distinct. -/
theorem c9_counterexample :
    closeCodeOf (websocket_auth ⟨none, true, none, none⟩)
        = closeCodeOf (websocket_auth ⟨some "t", false, none, none⟩) ∧
      closeCodeOf (websocket_auth ⟨some "t", false, none, none⟩)
        = closeCodeOf (websocket_auth ⟨some "t", true, some "u", none⟩) := by
  constructor <;> rfl

/-- C9 (amended): every one of the three authentication failure paths
closes the socket with close code 1008; the paths are distinguished
only by their reason strings, which are pairwise distinct. -/
theorem c9_close_codes (env1 env2 env3 : HandshakeEnv)
    (h1 : env1.token = none)
    (h2 : ∃ t, env2.token = some t ∧ env2.verifyOk = false)
    (h3 : ∃ t u, env3.token = some t ∧ env3.verifyOk = true ∧
      env3.subUsername = some u ∧ env3.dbUser = none) :
    closeCodeOf (websocket_auth env1) = some 1008 ∧
    closeCodeOf (websocket_auth env2) = some 1008 ∧
    closeCodeOf (websocket_auth env3) = some 1008 ∧
    closeReasonOf (websocket_auth env1) ≠ closeReasonOf (websocket_auth env2) ∧
    closeReasonOf (websocket_auth env1) ≠ closeReasonOf (websocket_auth env3) ∧
    closeReasonOf (websocket_auth env2) ≠ closeReasonOf (websocket_auth env3) := by
  obtain ⟨t2, ht2, hv2⟩ := h2
  obtain ⟨t3, u3, ht3, hv3, hs3, hd3⟩ := h3
  unfold websocket_auth
  rw [h1, ht2, ht3, hv2, hv3, hs3, hd3]
  refine ⟨rfl, rfl, rfl, ?_, ?_, ?_⟩
  · show (some "Authentication required" : Option String) ≠ some "Invalid token"
    decide
  · show (some "Authentication required" : Option String) ≠ some "User not found"
    decide
  · show (some "Invalid token" : Option String) ≠ some "User not found"
    decide

theorem c9_close_codes_witness :
    closeCodeOf (websocket_auth ⟨none, true, none, none⟩) = some 1008 ∧
      closeReasonOf (websocket_auth ⟨some "t", false, none, none⟩)
        ≠ closeReasonOf (websocket_auth ⟨some "t", true, some "u", none⟩) :=
  ⟨(c9_close_codes ⟨none, true, none, none⟩ ⟨some "t", false, none, none⟩
      ⟨some "t", true, some "u", none⟩ rfl ⟨"t", rfl, rfl⟩
      ⟨"t", "u", rfl, rfl, rfl, rfl⟩).1,
    (c9_close_codes ⟨none, true, none, none⟩ ⟨some "t", false, none, none⟩
      ⟨some "t", true, some "u", none⟩ rfl ⟨"t", rfl, rfl⟩
      ⟨"t", "u", rfl, rfl, rfl, rfl⟩).2.2.2.2.2⟩

/-! ### Bulk update endpoint (`/transcripts/update`) -/

/-- The JSON document `save_transcript_to_file` writes (api_server.py
lines 57-99, `delete_after_storage=False` path): all entries marked
final, `total_entries` the entry count, and the owner id copied into
metadata when the room mapping yields a truthy id. -/
structure TranscriptFile where
  meeting_name : String
  transcripts : List Entry
  total_entries : Nat
  user_id : Option Int
deriving DecidableEq, Repr

/-- `save_transcript_to_file(meeting_name, transcripts)` with the
default `delete_after_storage=False`: the file content written for a
list of `(speaker, text)` pairs, given the owner
`get_user_id_for_room(meeting_name)` resolves to. -/
def save_transcript_to_file (meeting : String) (trs : List (String × String))
    (owner : Option Int) : TranscriptFile :=
  { meeting_name := meeting
    transcripts := trs.map fun p => ⟨p.1, p.2, true⟩
    total_entries := trs.length
    user_id := if truthyOwner owner then owner else none }

/-- The `POST /transcripts/update` handler `update_transcripts_from_main`
(api_server.py lines 1903-1944) as a pure function of the room owner,
the owner's current in-memory transcript list
(`transcript_manager.user_transcripts[user_id]`), the current on-disk
file, and the request's `(speaker, text)` list.  Returns the new
in-memory list, the new file state, and whether the handler answered
`"ok"`.  The file is rewritten only when the request list is non-empty
(`if request.transcripts:` at line 1933). -/
def update_transcripts_from_main (room : String) (owner : Option Int)
    (stored : List (String × String × Bool)) (file : Option TranscriptFile)
    (reqTrs : List (String × String)) :
    List (String × String × Bool) × Option TranscriptFile × Bool :=
  match owner with
  | none => (stored, file, false)
  | some _ =>
    let newStored := reqTrs.map fun p => (p.1, p.2, true)
    let newFile :=
      if reqTrs ≠ [] then some (save_transcript_to_file room reqTrs owner) else file
    (newStored, newFile, true)

/-- C6 fails as stated: a bulk update with an empty transcript list for
a room with a known owner replaces the in-memory sequence but does not
trigger persistence — the previously persisted file (here one stale
entry) is left untouched instead of being replaced by the empty
sequence. -/
theorem c6_counterexample :
    update_transcripts_from_main "standup" (some 1) [("A", "old", true)]
        (some ⟨"standup", [⟨"A", "old", true⟩], 1, some 1⟩) []
      = ([], some ⟨"standup", [⟨"A", "old", true⟩], 1, some 1⟩, true) ∧
    (update_transcripts_from_main "standup" (some 1) [("A", "old", true)]
        (some ⟨"standup", [⟨"A", "old", true⟩], 1, some 1⟩) []).2.1
      ≠ some (save_transcript_to_file "standup" [] (some 1)) := by
  constructor <;> decide

/-- C6 (amended): for a room with a known owner, the bulk-update
endpoint replaces the owner's entire in-memory transcript sequence with
exactly the request's entries, all marked final, and — whenever the
request list is non-empty — persists exactly that sequence (all final)
to the store; an empty request list leaves the persisted file
untouched. -/
theorem c6_bulk_replace (room : String) (uid : Int)
    (stored : List (String × String × Bool)) (file : Option TranscriptFile)
    (reqTrs : List (String × String)) :
    (update_transcripts_from_main room (some uid) stored file reqTrs).1
        = reqTrs.map (fun p => (p.1, p.2, true)) ∧
    (reqTrs ≠ [] →
      (update_transcripts_from_main room (some uid) stored file reqTrs).2.1
        = some (save_transcript_to_file room reqTrs (some uid)) ∧
      (save_transcript_to_file room reqTrs (some uid)).transcripts
        = reqTrs.map (fun p => ⟨p.1, p.2, true⟩)) ∧
    (reqTrs = [] →
      (update_transcripts_from_main room (some uid) stored file reqTrs).2.1 = file) := by
  refine ⟨rfl, fun hne => ⟨?_, rfl⟩, fun he => ?_⟩
  · unfold update_transcripts_from_main
    simp [hne]
  · unfold update_transcripts_from_main
    simp [he]

theorem c6_bulk_replace_witness :
    (update_transcripts_from_main "standup" (some 7) [("C", "z", false)] none
        [("Alice", "A"), ("Bob", "B")]).1
      = [("Alice", "A", true), ("Bob", "B", true)] ∧
    (update_transcripts_from_main "standup" (some 7) [("C", "z", false)] none
        [("Alice", "A"), ("Bob", "B")]).2.1
      = some (save_transcript_to_file "standup" [("Alice", "A"), ("Bob", "B")] (some 7)) :=
  ⟨(c6_bulk_replace "standup" 7 [("C", "z", false)] none
      [("Alice", "A"), ("Bob", "B")]).1,
    ((c6_bulk_replace "standup" 7 [("C", "z", false)] none
      [("Alice", "A"), ("Bob", "B")]).2.1 (by decide)).1⟩

/-! ### `TranscriptManager.broadcast_transcript` -/

/-- All live connections of a user
(`TranscriptManager.get_connections_for_user`, api_server.py lines
860-862). -/
def get_connections_for_user (connUsers : List (Nat × Int)) (uid : Int) : List Nat :=
  (connUsers.filter fun p => p.2 == uid).map fun p => p.1

/-- The in-memory merge step of `TranscriptManager.broadcast_transcript`
(api_server.py lines 909-978) on the per-user tuple list
`user_transcripts[user_id]`: returns the new list and the
`is_duplicate` flag computed by the code.  Stored tuples are compared
without re-stripping (`entry_text == text_stripped`), unlike the
file-merge path; interim events never set the flag. -/
def broadcast_merge (speaker t : String) (isFinal : Bool)
    (ut : List (String × String × Bool)) : List (String × String × Bool) × Bool :=
  if isFinal then
    match ut.getLast? with
    | none => (ut ++ [(speaker, t, true)], false)
    | some lastE =>
      if lastE.1 == speaker then
        if !lastE.2.2 then (ut.dropLast ++ [(speaker, t, true)], false)
        else if lastE.2.1 == t then (ut, true)
        else if pyIn lastE.2.1 t && pyLen t > pyLen lastE.2.1 then
          (ut.dropLast ++ [(speaker, t, true)], false)
        else if (lastN 20 ut).any (fun e => e.1 == speaker && e.2.1 == t && e.2.2) then
          (ut, true)
        else (ut ++ [(speaker, t, true)], false)
      else
        if (lastN 20 ut).any (fun e => e.1 == speaker && e.2.1 == t && e.2.2) then
          (ut, true)
        else (ut ++ [(speaker, t, true)], false)
  else
    match ut.getLast? with
    | none => (ut ++ [(speaker, t, false)], false)
    | some lastE =>
      if lastE.1 == speaker && !lastE.2.2 then
        (ut.dropLast ++ [(speaker, t, false)], false)
      else (ut ++ [(speaker, t, false)], false)

/-- `TranscriptManager.broadcast_transcript` (api_server.py lines
884-1015) for a known `user_id`: merges the event into the user's
in-memory list, then sends the `"transcript"` message to that user's
connections — unless the event is final and was detected as a
duplicate (`if is_final and is_duplicate: return`, line 983), in which
case nothing is sent.  The recipient list is computed through the
truthiness gate of line 996
(`self.get_connections_for_user(user_id) if user_id else []`): a falsy
user id (0) yields no recipients.  Returns the new list and the
connection ids the message is sent to. -/
def broadcast_transcript (speaker text : String) (isFinal : Bool) (uid : Int)
    (connUsers : List (Nat × Int)) (ut : List (String × String × Bool)) :
    List (String × String × Bool) × List Nat :=
  let t := pyStrip text
  if t = "" then (ut, [])
  else
    let r := broadcast_merge speaker t isFinal ut
    if isFinal && r.2 then (r.1, [])
    else (r.1, if uid != 0 then get_connections_for_user connUsers uid else [])

/-- C10 fails as stated: with known user id 0 — non-None, so it passes
the `if user_id is None` guard and the event is merged and stored — an
interim event is sent to nobody, because the recipient computation of
line 996 (`... if user_id else []`) treats 0 as falsy, even though user
0 owns a registered connection the claim says must receive the
message. -/
theorem c10_counterexample :
    get_connections_for_user [(3, 0)] 0 = [3] ∧
    (broadcast_transcript "A" "y" false 0 [(3, 0)] [("A", "x", true)]).2 = [] := by
  constructor <;> decide

/-- C10 (amended): in `broadcast_transcript` with non-empty trimmed
text and a known user id, a final event detected as a duplicate (the
code's `is_duplicate` flag: exact duplicate of the trailing final
entry, or an exact `(speaker, text, final)` match within the last 20
stored entries) sends no outbound `"transcript"` message to anyone;
every interim event (its duplicate flag is always false) sends the
message to the owner's connections whenever the user id is nonzero —
even when the event merely replaces the trailing interim entry instead
of being appended — while user id 0 is falsy at the line-996 recipient
gate, so its interim messages reach no connection. -/
theorem c10_broadcast_duplicate_gating (speaker text : String) (uid : Int)
    (connUsers : List (Nat × Int)) (ut : List (String × String × Bool))
    (h : pyStrip text ≠ "") :
    ((broadcast_merge speaker (pyStrip text) true ut).2 = true →
      (broadcast_transcript speaker text true uid connUsers ut).2 = []) ∧
    (broadcast_merge speaker (pyStrip text) false ut).2 = false ∧
    (uid ≠ 0 →
      (broadcast_transcript speaker text false uid connUsers ut).2
        = get_connections_for_user connUsers uid) ∧
    (uid = 0 →
      (broadcast_transcript speaker text false uid connUsers ut).2 = []) := by
  refine ⟨fun hdup => ?_, ?_, fun huid => ?_, fun huid => ?_⟩
  · unfold broadcast_transcript
    simp [h, hdup]
  · unfold broadcast_merge
    cases hl : ut.getLast? with
    | none => simp
    | some lastE =>
      split
      · simp_all
      · split
        · rfl
        · split <;> rfl
  · unfold broadcast_transcript
    simp [h, huid]
  · subst huid
    unfold broadcast_transcript
    simp [h]

theorem c10_broadcast_duplicate_gating_witness :
    (broadcast_transcript "A" "x" true 7 [(3, 7)] [("A", "x", true)]).2 = [] ∧
    (broadcast_transcript "A" "x" false 7 [(3, 7)] [("A", "x", true)]).2 = [3] := by
  have hc := c10_broadcast_duplicate_gating "A" "x" 7 [(3, 7)] [("A", "x", true)]
    (by decide)
  exact ⟨hc.1 (by decide), by rw [hc.2.2.1 (by decide)]; decide⟩
